import Mathlib

/-!
Shallow embedding of the tool invocation subsystem of `chatbot-core`:
the Execution Orchestrator (`useAssistantTool`, src/lib/hooks/useAssistantTool.ts),
the Networked Tool Adapter (`useAPITool`) and the shared tool types
(src/lib/types/tool.ts).

JavaScript values are modelled by `JSValue` (with JS truthiness), thrown
values by `Thrown` (an `Error` object or an arbitrary non-`Error` value kept
in its `String(...)` form), and computations that may throw by
`Except Thrown`.  React state cells become explicit state records threaded
through the operations; observer callbacks and externally visible actions
become entries of an event trace.  The network transport is an oracle
mapping the index of each `fetch` call to its outcome.
-/

namespace ChatbotCore

/-- Model of a JavaScript value, sufficient to express JS truthiness. -/
inductive JSValue where
  | vNull
  | vUndef
  | vBool (b : Bool)
  | vNum (n : Int)
  | vStr (s : String)
  | vObj (tag : Nat)
deriving DecidableEq, Repr

/-- JS truthiness of a value (`if (x)`). -/
def JSValue.truthy : JSValue → Bool
  | .vNull => false
  | .vUndef => false
  | .vBool b => b
  | .vNum n => n != 0
  | .vStr s => s != ""
  | .vObj _ => true

/-- Model of a JavaScript `Error` object: its `name` and `message`. -/
structure JSError where
  name : String
  message : String
deriving DecidableEq, Repr

/-- A thrown JavaScript value: either an `Error` instance or a non-`Error`
value, recorded by its `String(...)` rendering. -/
inductive Thrown where
  | err (e : JSError)
  | nonError (s : String)
deriving DecidableEq, Repr

/-- Model of `err instanceof Error ? err : new Error(String(err))`. -/
def Thrown.toError : Thrown → JSError
  | .err e => e
  | .nonError s => ⟨"Error", s⟩

/-- Model of the JS expression `o || d` for an optional number (absent,
`NaN`-like, and `0` are falsy). -/
def jsOrNat (o : Option Nat) (d : Nat) : Nat :=
  match o with
  | some n => if n = 0 then d else n
  | none => d

/-- JS truthiness of an optional string field (`undefined` and `""` falsy). -/
def truthyStr : Option String → Bool
  | some s => s != ""
  | none => false

/-- JS object property assignment `r[k] = v` on a record modelled as an
association list: overwrites in place when the key exists, else appends. -/
def recSet {A : Type} (r : List (String × A)) (k : String) (v : A) :
    List (String × A) :=
  if r.any (fun p => p.1 = k) then
    r.map (fun p => if p.1 = k then (k, v) else p)
  else r ++ [(k, v)]

/-- JS object property read `r[k]` on a record modelled as an association
list. -/
def recGet {A : Type} (r : List (String × A)) (k : String) : Option A :=
  (r.find? (fun p => p.1 = k)).map (fun p => p.2)

/-- The numeric value of a list of decimal digit characters, `none` when
the list is empty. -/
def digitsToNat (ds : List Char) : Option Nat :=
  if ds.isEmpty then none
  else some (ds.foldl (fun n c => n * 10 + (c.toNat - 48)) 0)

/-- Model of `parseInt(s, 10)` restricted to nonnegative inputs: the longest
digit prefix (after leading spaces), `none` standing for `NaN`. -/
def jsParseInt (s : String) : Option Nat :=
  digitsToNat ((s.toList.dropWhile (fun c => c = ' ')).takeWhile Char.isDigit)

/-! ### Validation model (src/lib/types/tool.ts) -/

/-- One entry of `ValidationError.errors`: `{path, message, field?}`. -/
structure VErrorEntry where
  path : List String
  message : String
  field : Option String
deriving DecidableEq, Repr

/-- A `ValidationError` from schema validation: a list of entries plus a
summary message. -/
structure ValidationError where
  errors : List VErrorEntry
  message : String
deriving DecidableEq, Repr

/-- The raw shape of `safeParse`'s return value:
`{success: boolean; data?: T; error?: ValidationError}`. -/
structure SafeParseRes (T : Type) where
  success : Bool
  data : Option T
  error : Option ValidationError
deriving DecidableEq, Repr

/-- The Schema contract consumed by the Orchestrator: `parse` and
`safeParse` over a draft of type `P`, both of which may throw (the
Orchestrator guards `safeParse` with its own try/catch). -/
structure Schema (P T : Type) where
  parse : P → Except Thrown T
  safeParse : P → Except Thrown (SafeParseRes T)

/-- The key under which a validation entry is stored:
`err.field || err.path.join('.')` (JS falsy-or, so an empty-string `field`
also falls back to the dotted path). -/
def entryKey (e : VErrorEntry) : String :=
  match e.field with
  | some f => if f = "" then String.intercalate "." e.path else f
  | none => String.intercalate "." e.path

/-- The `reduce` in `validateParams` that turns the entries into a
`Record<string, string>`: `acc[entryKey err] = err.message`. -/
def errorsToRecord (es : List VErrorEntry) : List (String × String) :=
  es.foldl (fun acc e => recSet acc (entryKey e) e.message) []

/-- The message stored under `_general` when the schema itself throws:
`err instanceof Error ? err.message : 'Unknown validation error'`. -/
def thrownValidationMessage : Thrown → String
  | .err e => e.message
  | .nonError _ => "Unknown validation error"

/-- Core of `validateParams` (useAssistantTool.ts lines 110-137): clears
previous validation errors, runs `safeParse` on the draft, and returns the
new `validationErrors` cell together with the boolean result.  The failure
branch is guarded by `!result.success && result.error` (JS truthiness of the
error object); a throw from the schema is caught and stored as `_general`. -/
def validateParamsRun {P T : Type} (schema : Schema P T) (params : P) :
    Option (List (String × String)) × Bool :=
  match schema.safeParse params with
  | .error t => (some [("_general", thrownValidationMessage t)], false)
  | .ok r =>
      if !r.success && r.error.isSome then
        (some (errorsToRecord ((r.error.getD ⟨[], ""⟩).errors)), false)
      else
        (none, true)

/-! ### Tool result and execution context (src/lib/types/tool.ts) -/

/-- The `errorDetails` field of a Tool Result. -/
structure ErrorDetails where
  code : Option String
  details : Option (List (String × String))
  suggestions : Option (List String)
deriving DecidableEq, Repr

/-- The `metadata` field of a Tool Result; `extra` holds additional keys
such as `toolCallId`. -/
structure ResultMetadata where
  durationMs : Option Nat
  completedAt : Option Nat
  extra : List (String × JSValue)
deriving DecidableEq, Repr

/-- A Tool Result `{data?, error?, errorDetails?, metadata?}`. -/
structure ToolResult (R : Type) where
  data : Option R
  error : Option String
  errorDetails : Option ErrorDetails
  metadata : Option ResultMetadata
deriving DecidableEq, Repr

/-- An `AbortSignal`, reduced to whether it has been aborted. -/
structure AbortSignal where
  aborted : Bool
deriving DecidableEq, Repr

/-- A `ToolExecutionContext` `{toolCallId, abortSignal?, timeoutMs?}`. -/
structure ToolExecutionContext where
  toolCallId : String
  abortSignal : Option AbortSignal
  timeoutMs : Option Nat
deriving DecidableEq, Repr

/-- The caller-supplied `Partial<ToolExecutionContext>` accepted by
`execute`. -/
structure CtxOverride where
  toolCallId : Option String
  abortSignal : Option AbortSignal
  timeoutMs : Option Nat
deriving DecidableEq, Repr

/-- Model of the JS expression `o || d` for an optional string. -/
def jsOrStr (o : Option String) (d : String) : String :=
  match o with
  | some s => if s = "" then d else s
  | none => d

/-- Construction of the execution context in `execute` (lines 160-164):
`toolCallId: context?.toolCallId || call-<Date.now()>`, with the abort
signal and timeout passed through. -/
def buildCtx (o : Option CtxOverride) (now : Nat) : ToolExecutionContext :=
  { toolCallId := jsOrStr (o.bind (fun c => c.toolCallId)) ("call-" ++ toString now),
    abortSignal := o.bind (fun c => c.abortSignal),
    timeoutMs := o.bind (fun c => c.timeoutMs) }

/-! ### Execution Orchestrator (src/lib/hooks/useAssistantTool.ts) -/

/-- The React state cells of `useAssistantTool`: `params`, `result`,
`isExecuting`, `error`, `validationErrors`. -/
structure HookState (P R : Type) where
  params : P
  result : Option R
  isExecuting : Bool
  error : Option JSError
  validationErrors : Option (List (String × String))
deriving DecidableEq, Repr

/-- Externally observable actions of one `execute` run: the `parse` call,
the three callbacks, and the call into the Tool Descriptor's execution
function. -/
inductive HookEvent (T R : Type) where
  | parseCall
  | startCb (p : T)
  | toolCall (p : T)
  | completeCb (r : R)
  | errorCb (e : JSError)
deriving DecidableEq, Repr

/-- `validateParams` at the level of the hook state: writes the new
`validationErrors` cell (clearing any prior errors) and reports validity. -/
def hookValidateParams {P T R : Type} (schema : Schema P T)
    (st : HookState P R) : HookState P R × Bool :=
  let out := validateParamsRun schema st.params
  ({ st with validationErrors := out.1 }, out.2)

/-- The `try` block of `execute` (lines 152-178): parse the draft, fire
`onExecutionStart`, call the tool's execution function, then inspect the
Tool Result — a truthy `error` string is re-thrown as `new Error(...)`, a
truthy `data` is committed and returned, anything else resolves with
`undefined`.  Returns the events fired so far together with either the
updated state and return value or the thrown value.
`truthyR` embeds JS truthiness of the generic result type `R`. -/
def executeTry {P T R : Type} (truthyR : R → Bool) (schema : Schema P T)
    (toolExec : T → ToolExecutionContext → Except Thrown (ToolResult R))
    (ctxArg : Option CtxOverride) (now : Nat) (st : HookState P R) :
    List (HookEvent T R) × Except Thrown (HookState P R × Option R) :=
  match schema.parse st.params with
  | .error t => ([.parseCall], .error t)
  | .ok validParams =>
      let ctx := buildCtx ctxArg now
      match toolExec validParams ctx with
      | .error t =>
          ([.parseCall, .startCb validParams, .toolCall validParams], .error t)
      | .ok execResult =>
          let evs := [HookEvent.parseCall (T := T) (R := R),
                      .startCb validParams, .toolCall validParams]
          if truthyStr execResult.error then
            (evs, .error (.err ⟨"Error", execResult.error.getD ""⟩))
          else
            match execResult.data with
            | some d =>
                if truthyR d then
                  (evs ++ [.completeCb d],
                   .ok ({ st with result := some d }, some d))
                else (evs, .ok (st, none))
            | none => (evs, .ok (st, none))

/-- `execute` (lines 140-187): clear `result`/`error`, validate (returning
`undefined` on failure), set `isExecuting`, run the `try` block, fold any
thrown value through the `catch` (normalize, store, fire
`onExecutionError`), and reset `isExecuting` in the `finally`.  The outer
`Except` is the promise as seen by the caller: a `.error` would be an
uncaught rejection. -/
def hookExecute {P T R : Type} (truthyR : R → Bool) (schema : Schema P T)
    (toolExec : T → ToolExecutionContext → Except Thrown (ToolResult R))
    (ctxArg : Option CtxOverride) (now : Nat) (st : HookState P R) :
    Except Thrown (HookState P R × Option R × List (HookEvent T R)) :=
  let st1 : HookState P R := { st with result := none, error := none }
  match hookValidateParams schema st1 with
  | (st2, false) => .ok (st2, none, [])
  | (st2, true) =>
    let st3 : HookState P R := { st2 with isExecuting := true }
    match executeTry truthyR schema toolExec ctxArg now st3 with
    | (evs, .ok (st4, ret)) => .ok ({ st4 with isExecuting := false }, ret, evs)
    | (evs, .error t) =>
        let eObj := Thrown.toError t
        .ok ({ st3 with error := some eObj, isExecuting := false }, none,
             evs ++ [.errorCb eObj])

/-- `updateParam` (lines 105-107) on a draft modelled as a JS record:
merge one field into the draft. -/
def hookUpdateParam {R : Type} (st : HookState (List (String × JSValue)) R)
    (k : String) (v : JSValue) : HookState (List (String × JSValue)) R :=
  { st with params := recSet st.params k v }

/-- The state seen by the `try` block of `execute` once validation passed:
`result` and `error` cleared, `validationErrors` cleared by the successful
validation, `isExecuting` set. -/
def stExec {P R : Type} (st : HookState P R) : HookState P R :=
  { st with result := none, error := none, validationErrors := none,
            isExecuting := true }

/-! ### Networked Tool Adapter (`useAPITool`)

The request construction (URL, query string, headers, body) does not affect
the control flow of `executeAPI`, so the transport is abstracted into an
oracle mapping the index of each `fetch` call to its outcome; the claims
quantify over that oracle. -/

/-- The `APIConfig` options relevant to the retry loop; absent fields model
`undefined`. -/
structure APIConfig where
  retryAttempts : Option Nat
  retryDelay : Option Nat
  rateLimitDelay : Option Nat
deriving DecidableEq, Repr

/-- The adapter's React state cells: `lastResult`, `lastError`,
`isLoading`. -/
structure APIState (R : Type) where
  lastResult : Option R
  lastError : Option JSError
  isLoading : Bool
deriving DecidableEq, Repr

/-- Outcome of one `fetch` call: the promise rejects (network failure or
abort), or a response arrives with a status, status text, optional
`retry-after` header and a body. -/
inductive FetchOutcome (B : Type) where
  | rejects (t : Thrown)
  | resp (status : Nat) (statusText : String) (retryAfter : Option String)
      (body : B)
deriving DecidableEq, Repr

/-- Externally observable actions of one `executeAPI` run: each `fetch`
call (by index), the `onRateLimit`/`onRetry`/`onSuccess`/`onError`
callbacks, and each `setTimeout` wait with its duration. -/
inductive APIEvent where
  | fetchEv (callIdx : Nat)
  | rateLimitEv (delay : Nat)
  | retryEv (attempt : Nat)
  | waitEv (ms : Nat)
  | successEv
  | errorEv
deriving DecidableEq, Repr

/-- How `executeAPI` terminates: the returned result, a thrown `Error`, or
fuel exhaustion of the model (the source loop has no such bound; claims
supply enough fuel). -/
inductive APIOutcome (R : Type) where
  | success (r : R)
  | thrown (e : JSError)
  | fuelOut
deriving DecidableEq, Repr

/-- `response.ok`: status in the range 200-299. -/
def jsOk (status : Nat) : Bool :=
  200 ≤ status && status < 300

/-- The rate-limit wait (lines 402-403):
`parseInt(headers.get('retry-after') || '0', 10) * 1000` and then
`retryAfter || apiConfig.rateLimitDelay || 5000` (all JS falsy-or, so a
missing, non-numeric or zero hint falls back to the configured delay). -/
def rateDelay (hdr : Option String) (cfg : APIConfig) : Nat :=
  jsOrNat ((jsParseInt (jsOrStr hdr "0")).map (fun n => n * 1000))
    (jsOrNat cfg.rateLimitDelay 5000)

/-- Whether a thrown value is an abort:
`error instanceof Error && error.name === 'AbortError'`. -/
def isAbort : Thrown → Bool
  | .err e => e.name == "AbortError"
  | .nonError _ => false

/-- The `while (attempt <= maxRetries)` loop of `executeAPI`
(lines 395-446), driven by fuel.  Each iteration fetches; `429` computes the
rate-limit delay, notifies, waits and continues without touching `attempt`;
a non-ok status throws a transport error into the shared `catch`; the
`catch` rethrows aborts immediately, increments `attempt`, and either stores
the terminal error and throws or notifies the retry observer and waits
`retryDelay * attempt` before looping.  Falling out of the loop throws
`'Unexpected error in API call'`. -/
def apiLoop {B R : Type} (cfg : APIConfig) (transport : Nat → FetchOutcome B)
    (r2r : B → R) (maxRetries retryDelay : Nat) :
    Nat → Nat → Nat → APIState R → List APIEvent →
    APIOutcome R × APIState R × List APIEvent
  | 0, _, _, st, evs => (.fuelOut, st, evs)
  | fuel + 1, callIdx, attempt, st, evs =>
      if attempt > maxRetries then
        (.thrown ⟨"Error", "Unexpected error in API call"⟩, st, evs)
      else
        let onThrow := fun (t : Thrown) (evs1 : List APIEvent) =>
          if isAbort t then
            (APIOutcome.thrown t.toError, { st with isLoading := false }, evs1)
          else
            let attempt1 := attempt + 1
            if attempt1 > maxRetries then
              let finalError := t.toError
              (.thrown finalError,
               { st with lastError := some finalError, isLoading := false },
               evs1 ++ [.errorEv])
            else
              apiLoop cfg transport r2r maxRetries retryDelay fuel
                (callIdx + 1) attempt1 st
                (evs1 ++ [.retryEv attempt1, .waitEv (retryDelay * attempt1)])
        match transport callIdx with
        | .rejects t => onThrow t (evs ++ [.fetchEv callIdx])
        | .resp status statusText hdr body =>
            let evs1 := evs ++ [.fetchEv callIdx]
            if status = 429 then
              let delay := rateDelay hdr cfg
              apiLoop cfg transport r2r maxRetries retryDelay fuel
                (callIdx + 1) attempt st
                (evs1 ++ [.rateLimitEv delay, .waitEv delay])
            else if !jsOk status then
              onThrow (.err ⟨"Error", s!"API error: {status} {statusText}"⟩) evs1
            else
              let result := r2r body
              (.success result,
               { st with lastResult := some result, isLoading := false },
               evs1 ++ [.successEv])

/-- `executeAPI` (lines 353-450): set `isLoading`, clear `lastError`,
resolve `retryAttempts || 0` and `retryDelay || 1000`, and run the loop
from call index 0 and attempt 0.  (Aborting the previous in-flight
controller and creating a fresh one has no observable effect within a
single modelled call.) -/
def executeAPI {B R : Type} (cfg : APIConfig) (transport : Nat → FetchOutcome B)
    (r2r : B → R) (fuel : Nat) (st : APIState R) :
    APIOutcome R × APIState R × List APIEvent :=
  let st1 : APIState R := { st with isLoading := true, lastError := none }
  apiLoop cfg transport r2r (jsOrNat cfg.retryAttempts 0)
    (jsOrNat cfg.retryDelay 1000) fuel 0 0 st1 []

/-- The Tool Descriptor's `execute` built by the adapter (lines 489-512):
run `executeAPI`; a returned value becomes `{data, metadata: {completedAt,
toolCallId}}`, a thrown `Error` becomes `{error: message, errorDetails:
{code: 'API_ERROR', details, suggestions}}`.  Note the execution context is
consulted only for `toolCallId`; its `abortSignal` is never attached to the
transport.  `none` in the first component models only fuel exhaustion. -/
def adapterToolExecute {B R : Type} (cfg : APIConfig)
    (transport : Nat → FetchOutcome B) (r2r : B → R) (fuel now : Nat)
    (ctx : ToolExecutionContext) (st : APIState R) :
    Option (ToolResult R) × APIState R × List APIEvent :=
  match executeAPI cfg transport r2r fuel st with
  | (.success r, st1, evs) =>
      (some { data := some r, error := none, errorDetails := none,
              metadata := some { durationMs := none, completedAt := some now,
                                 extra := [("toolCallId", .vStr ctx.toolCallId)] } },
       st1, evs)
  | (.thrown e, st1, evs) =>
      (some { data := none, error := some e.message,
              errorDetails := some
                { code := some "API_ERROR",
                  details := some [("message", e.message)],
                  suggestions := some ["Check your connection", "Try again later"] },
              metadata := none },
       st1, evs)
  | (.fuelOut, st1, evs) => (none, st1, evs)

/-! ### Concrete fixtures and derived definitions used by the theorems -/

/-- The trace produced by a run of consecutive rate-limited responses
starting at call index `base`: for each call, the fetch, the `onRateLimit`
notification and the wait, with the delay computed from that response's
`retry-after` header. -/
def rate429Trace (cfg : APIConfig) (hdrs : Nat → Option String) :
    Nat → Nat → List APIEvent
  | _, 0 => []
  | base, n + 1 =>
      [.fetchEv base, .rateLimitEv (rateDelay (hdrs base) cfg),
       .waitEv (rateDelay (hdrs base) cfg)] ++ rate429Trace cfg hdrs (base + 1) n

/-- The adapter's Tool Descriptor execution function as consumed by the
Orchestrator: it never rejects (every outcome of `executeAPI` is folded
into a Tool Result); the fuel-exhaustion model artifact is defaulted to an
empty result. -/
def toolExecOfAdapter {B R T : Type} (cfg : APIConfig)
    (transport : Nat → FetchOutcome B) (r2r : B → R) (fuel now : Nat)
    (st : APIState R) :
    T → ToolExecutionContext → Except Thrown (ToolResult R) :=
  fun _ ctx =>
    .ok ((adapterToolExecute cfg transport r2r fuel now ctx st).1.getD
      ⟨none, none, none, none⟩)

/-- Transport for the C3 scenario: status 500 on the first two requests,
status 200 with a payload on the third. -/
def transportC3 : Nat → FetchOutcome JSValue := fun n =>
  if n < 2 then .resp 500 "Internal Server Error" none .vNull
  else .resp 200 "OK" none (.vStr "payload")

/-- Adapter configuration for the C3 scenario: `retryAttempts = 2`,
`retryDelay = 100`. -/
def cfgC3 : APIConfig := ⟨some 2, some 100, none⟩

/-- A fresh adapter state. -/
def st0 : APIState JSValue := ⟨none, none, false⟩

/-- Transport returning a rate-limit response whose `retry-after` header is
present and reads `"0"`, then a success. -/
def transportC4 : Nat → FetchOutcome JSValue := fun n =>
  if n = 0 then .resp 429 "Too Many Requests" (some "0") .vNull
  else .resp 200 "OK" none (.vStr "ok")

/-- Adapter configuration with `rateLimitDelay = 700`. -/
def cfgC4 : APIConfig := ⟨some 0, none, some 700⟩

/-- Transport returning two rate-limit responses with a 2-second
`retry-after` hint, then a success. -/
def transportC4w : Nat → FetchOutcome JSValue := fun n =>
  if n < 2 then .resp 429 "Too Many Requests" (some "2") .vNull
  else .resp 200 "OK" none (.vStr "done")

/-- Adapter configuration whose retry budget (0) is smaller than the number
of rate-limit responses in `transportC4w`. -/
def cfgC4w : APIConfig := ⟨some 0, none, none⟩

/-- Transport whose fetch always rejects with a network error. -/
def transportC2 : Nat → FetchOutcome JSValue := fun _ =>
  .rejects (.err ⟨"TypeError", "Failed to fetch"⟩)

/-- Adapter configuration with every option absent (no retries). -/
def cfgZero : APIConfig := ⟨none, none, none⟩

/-- An execution context that has not been cancelled. -/
def ctxPlain : ToolExecutionContext := ⟨"c1", none, none⟩

/-- An execution context whose abort signal has been triggered before any
response. -/
def ctxAborted : ToolExecutionContext := ⟨"c1", some ⟨true⟩, none⟩

/-- Transport that always answers 200 (it never observes any abort signal,
as the source attaches only the adapter's own controller to fetch). -/
def transportOk200 : Nat → FetchOutcome JSValue := fun _ =>
  .resp 200 "OK" none (.vStr "ok")

/-- Transport whose fetch rejects with an `AbortError` (the adapter's own
controller was aborted while the request was in flight). -/
def transportAbort : Nat → FetchOutcome JSValue := fun _ =>
  .rejects (.err ⟨"AbortError", "The user aborted a request."⟩)

/-- A validation entry used by the witness schema. -/
def failEntry : VErrorEntry := ⟨["x"], "x is required", some "x"⟩

/-- A validation error used by the witness schema. -/
def failVE : ValidationError := ⟨[failEntry], "invalid"⟩

/-- A schema whose `safeParse` always reports failure with `failVE`. -/
def schemaFail : Schema Unit Unit :=
  ⟨fun _ => .error (.err ⟨"Error", "invalid"⟩),
   fun _ => .ok ⟨false, none, some failVE⟩⟩

/-- A schema that always validates. -/
def schemaOk : Schema Unit Unit :=
  ⟨fun _ => .ok (), fun _ => .ok ⟨true, some (), none⟩⟩

/-- A schema whose `safeParse` itself throws a non-`Error` value. -/
def schemaThrows : Schema Unit Unit :=
  ⟨fun _ => .ok (), fun _ => .error (.nonError "oops")⟩

/-- A fresh Orchestrator state over the unit draft. -/
def hookSt0 : HookState Unit JSValue := ⟨(), none, false, none, none⟩

/-- A tool execution function that always throws. -/
def toolExecThrows : Unit → ToolExecutionContext → Except Thrown (ToolResult JSValue) :=
  fun _ _ => .error (.err ⟨"TypeError", "boom"⟩)

/-- A tool execution function resolving with a Tool Result that carries an
error string. -/
def toolExecErrStr : Unit → ToolExecutionContext → Except Thrown (ToolResult JSValue) :=
  fun _ _ => .ok ⟨none, some "bad thing", none, none⟩

/-- A tool execution function resolving with a falsy success payload `0`
and no error. -/
def toolExecFalsy : Unit → ToolExecutionContext → Except Thrown (ToolResult JSValue) :=
  fun _ _ => .ok ⟨some (.vNum 0), none, none, none⟩

/-- A schema over record drafts accepting exactly the drafts whose field
`x` equals `5`. -/
def schemaX5 : Schema (List (String × JSValue)) JSValue :=
  ⟨fun d => if recGet d "x" = some (.vNum 5) then .ok (.vNum 5)
            else .error (.err ⟨"Error", "x must be 5"⟩),
   fun d => if recGet d "x" = some (.vNum 5) then .ok ⟨true, some (.vNum 5), none⟩
            else .ok ⟨false, none, some ⟨[⟨["x"], "x must be 5", some "x"⟩], "x must be 5"⟩⟩⟩

/-- A fresh Orchestrator state over an empty record draft. -/
def hookStX : HookState (List (String × JSValue)) JSValue := ⟨[], none, false, none, none⟩

/-- A tool execution function echoing its parameter as the success data. -/
def toolExecEcho : JSValue → ToolExecutionContext → Except Thrown (ToolResult JSValue) :=
  fun v _ => .ok ⟨some v, none, none, none⟩

/-- JS truthiness on an all-truthy result type (used where the claim does
not depend on falsiness of the payload). -/
def truthyAll {R : Type} : R → Bool := fun _ => true

/-- The Tool Result produced by the adapter for `transportOk200` under
`ctxPlain` at time 42. -/
def resOk200 : ToolResult JSValue :=
  ⟨some (.vStr "ok"), none, none,
   some ⟨none, some 42, [("toolCallId", .vStr "c1")]⟩⟩

/-- Adapter state holding a previous result. -/
def stPrev : APIState JSValue := ⟨some (.vStr "prev"), none, false⟩

/-! ### Helper lemmas -/

theorem recGet_isSome_iff {A : Type} (r : List (String × A)) (k : String) :
    (recGet r k).isSome ↔ ∃ p ∈ r, p.1 = k := by
  simp [recGet]

theorem recGet_recSet_self {A : Type} (r : List (String × A)) (k : String) (v : A) :
    (recGet (recSet r k v) k).isSome := by
  rw [recGet_isSome_iff]
  unfold recSet
  by_cases h : r.any (fun p => p.1 = k)
  · have h' : ∃ p ∈ r, p.1 = k := by simpa using h
    obtain ⟨p0, hp0, hk0⟩ := h'
    simp only [h, if_true]
    exact ⟨(k, v), List.mem_map.mpr ⟨p0, hp0, by simp [hk0]⟩, rfl⟩
  · simp only [h, if_false]
    exact ⟨(k, v), by simp, rfl⟩

theorem recGet_recSet_mono {A : Type} (r : List (String × A)) (k k2 : String) (v : A)
    (h : (recGet r k2).isSome) : (recGet (recSet r k v) k2).isSome := by
  by_cases hk : k2 = k
  · subst hk; exact recGet_recSet_self r k2 v
  · rw [recGet_isSome_iff] at h ⊢
    obtain ⟨p0, hm, hk2⟩ := h
    unfold recSet
    by_cases ha : r.any (fun p => p.1 = k)
    · have hp0k : ¬ p0.1 = k := by rw [hk2]; exact hk
      simp only [ha, if_true]
      exact ⟨p0, List.mem_map.mpr ⟨p0, hm, by simp [hp0k]⟩, hk2⟩
    · simp only [ha, if_false]
      exact ⟨p0, List.mem_append.mpr (Or.inl hm), hk2⟩

theorem errorsToRecord_foldl_isSome (es : List VErrorEntry) :
    ∀ (acc : List (String × String)) (en : VErrorEntry),
      (en ∈ es ∨ (recGet acc (entryKey en)).isSome) →
      (recGet (es.foldl (fun acc e => recSet acc (entryKey e) e.message) acc)
        (entryKey en)).isSome := by
  induction es with
  | nil =>
      intro acc en h
      rcases h with h | h
      · simp at h
      · simpa using h
  | cons e es ih =>
      intro acc en h
      simp only [List.foldl_cons]
      apply ih
      rcases h with h | h
      · rcases List.mem_cons.mp h with h | h
        · right; rw [h]; exact recGet_recSet_self acc (entryKey e) e.message
        · left; exact h
      · right; exact recGet_recSet_mono acc (entryKey e) (entryKey en) e.message h

theorem errorsToRecord_mem_isSome {es : List VErrorEntry} {en : VErrorEntry}
    (h : en ∈ es) : (recGet (errorsToRecord es) (entryKey en)).isSome :=
  errorsToRecord_foldl_isSome es [] en (Or.inl h)

theorem entryKey_of_field_ne_empty {en : VErrorEntry} (h : en.field ≠ some "") :
    entryKey en = en.field.getD (String.intercalate "." en.path) := by
  cases hf : en.field with
  | none => simp [entryKey, hf]
  | some f =>
      have hfe : ¬ f = "" := fun he => h (by rw [hf, he])
      simp [entryKey, hf, hfe]

theorem hookValidateParams_eq {P T R : Type} (schema : Schema P T)
    (st : HookState P R) :
    hookValidateParams schema st =
      ({ st with validationErrors := (validateParamsRun schema st.params).1 },
       (validateParamsRun schema st.params).2) := rfl

theorem validateParamsRun_throw {P T : Type} {schema : Schema P T} {p : P}
    {t : Thrown} (h : schema.safeParse p = .error t) :
    validateParamsRun schema p = (some [("_general", thrownValidationMessage t)], false) := by
  simp [validateParamsRun, h]

theorem validateParamsRun_success {P T : Type} {schema : Schema P T} {p : P}
    {r : SafeParseRes T} (h : schema.safeParse p = .ok r) (hs : r.success = true) :
    validateParamsRun schema p = (none, true) := by
  simp [validateParamsRun, h, hs]

theorem validateParamsRun_failure {P T : Type} {schema : Schema P T} {p : P}
    {r : SafeParseRes T} {ve : ValidationError} (h : schema.safeParse p = .ok r)
    (hs : r.success = false) (he : r.error = some ve) :
    validateParamsRun schema p = (some (errorsToRecord ve.errors), false) := by
  simp [validateParamsRun, h, hs, he]

theorem hookExecute_invalid {P T R : Type} {truthyR : R → Bool} {schema : Schema P T}
    {toolExec : T → ToolExecutionContext → Except Thrown (ToolResult R)}
    {ctxArg : Option CtxOverride} {now : Nat} {st : HookState P R}
    {o : Option (List (String × String))}
    (h : validateParamsRun schema st.params = (o, false)) :
    hookExecute truthyR schema toolExec ctxArg now st =
      .ok ({ st with result := none, error := none, validationErrors := o },
           none, []) := by
  unfold hookExecute
  simp only [hookValidateParams_eq, h]

theorem hookExecute_valid {P T R : Type} {truthyR : R → Bool} {schema : Schema P T}
    {toolExec : T → ToolExecutionContext → Except Thrown (ToolResult R)}
    {ctxArg : Option CtxOverride} {now : Nat} {st : HookState P R}
    (h : validateParamsRun schema st.params = (none, true)) :
    hookExecute truthyR schema toolExec ctxArg now st =
      (match executeTry truthyR schema toolExec ctxArg now (stExec st) with
       | (evs, .ok (st4, ret)) => .ok ({ st4 with isExecuting := false }, ret, evs)
       | (evs, .error t) =>
           .ok ({ st with result := none, error := some t.toError,
                          validationErrors := none, isExecuting := false },
                none, evs ++ [.errorCb t.toError])) := by
  unfold hookExecute
  simp only [hookValidateParams_eq, h]
  rfl

theorem executeTry_parse_throw {P T R : Type} (truthyR : R → Bool)
    (schema : Schema P T)
    (toolExec : T → ToolExecutionContext → Except Thrown (ToolResult R))
    (ctxArg : Option CtxOverride) (now : Nat) (st : HookState P R) {t : Thrown}
    (h : schema.parse st.params = .error t) :
    executeTry truthyR schema toolExec ctxArg now st = ([.parseCall], .error t) := by
  simp [executeTry, h]

theorem executeTry_tool_throw {P T R : Type} (truthyR : R → Bool)
    (schema : Schema P T)
    (toolExec : T → ToolExecutionContext → Except Thrown (ToolResult R))
    (ctxArg : Option CtxOverride) (now : Nat) (st : HookState P R) {vp : T}
    {t : Thrown} (h : schema.parse st.params = .ok vp)
    (ht : toolExec vp (buildCtx ctxArg now) = .error t) :
    executeTry truthyR schema toolExec ctxArg now st =
      ([.parseCall, .startCb vp, .toolCall vp], .error t) := by
  simp [executeTry, h, ht]

theorem executeTry_tool_ok_errstr {P T R : Type} (truthyR : R → Bool)
    (schema : Schema P T)
    (toolExec : T → ToolExecutionContext → Except Thrown (ToolResult R))
    (ctxArg : Option CtxOverride) (now : Nat) (st : HookState P R) {vp : T}
    {res : ToolResult R} (h : schema.parse st.params = .ok vp)
    (ht : toolExec vp (buildCtx ctxArg now) = .ok res)
    (he : truthyStr res.error = true) :
    executeTry truthyR schema toolExec ctxArg now st =
      ([.parseCall, .startCb vp, .toolCall vp],
       .error (.err ⟨"Error", res.error.getD ""⟩)) := by
  simp [executeTry, h, ht, he]

theorem executeTry_tool_ok_data {P T R : Type} (truthyR : R → Bool)
    (schema : Schema P T)
    (toolExec : T → ToolExecutionContext → Except Thrown (ToolResult R))
    (ctxArg : Option CtxOverride) (now : Nat) (st : HookState P R) {vp : T}
    {res : ToolResult R} {d : R} (h : schema.parse st.params = .ok vp)
    (ht : toolExec vp (buildCtx ctxArg now) = .ok res)
    (he : truthyStr res.error = false) (hd : res.data = some d)
    (htr : truthyR d = true) :
    executeTry truthyR schema toolExec ctxArg now st =
      ([.parseCall, .startCb vp, .toolCall vp, .completeCb d],
       .ok ({ st with result := some d }, some d)) := by
  simp [executeTry, h, ht, he, hd, htr]

theorem executeTry_tool_ok_falsy {P T R : Type} (truthyR : R → Bool)
    (schema : Schema P T)
    (toolExec : T → ToolExecutionContext → Except Thrown (ToolResult R))
    (ctxArg : Option CtxOverride) (now : Nat) (st : HookState P R) {vp : T}
    {res : ToolResult R} (h : schema.parse st.params = .ok vp)
    (ht : toolExec vp (buildCtx ctxArg now) = .ok res)
    (he : truthyStr res.error = false)
    (hdat : ∀ d, res.data = some d → truthyR d = false) :
    executeTry truthyR schema toolExec ctxArg now st =
      ([.parseCall, .startCb vp, .toolCall vp], .ok (st, none)) := by
  simp only [executeTry, h, ht, he]
  cases hd : res.data with
  | none => simp
  | some d => simp [hdat d hd]

theorem validateParamsRun_true_none {P T : Type} {schema : Schema P T} {p : P}
    {o : Option (List (String × String))}
    (h : validateParamsRun schema p = (o, true)) : o = none := by
  unfold validateParamsRun at h
  cases hsp : schema.safeParse p with
  | error t => rw [hsp] at h; simp at h
  | ok r =>
      simp only [hsp] at h
      split at h
      · injection h with h1 h2; exact Bool.noConfusion h2
      · injection h with h1 h2; exact h1.symm

theorem hookExecute_settles {P T R : Type} (truthyR : R → Bool)
    (schema : Schema P T)
    (toolExec : T → ToolExecutionContext → Except Thrown (ToolResult R))
    (ctxArg : Option CtxOverride) (now : Nat) (st : HookState P R) :
    ∃ stf ret evs,
      hookExecute truthyR schema toolExec ctxArg now st = .ok (stf, ret, evs) ∧
      (st.isExecuting = false → stf.isExecuting = false) := by
  rcases hv : validateParamsRun schema st.params with ⟨o, b⟩
  cases b
  · exact ⟨_, _, _, hookExecute_invalid hv, fun h => h⟩
  · obtain rfl : o = none := validateParamsRun_true_none hv
    rw [hookExecute_valid hv]
    rcases hET : executeTry truthyR schema toolExec ctxArg now (stExec st)
      with ⟨evs, out⟩
    cases out with
    | ok pr =>
        rcases pr with ⟨st4, ret⟩
        exact ⟨_, _, _, rfl, fun _ => rfl⟩
    | error t => exact ⟨_, _, _, rfl, fun _ => rfl⟩

theorem apiLoop_rate429 {B R : Type} (cfg : APIConfig)
    (transport : Nat → FetchOutcome B) (r2r : B → R) (maxR rD : Nat)
    (stx : Nat → String) (hdrs : Nat → Option String) (bds : Nat → B) :
    ∀ (N fuel callIdx attempt : Nat) (st : APIState R) (evs : List APIEvent),
      attempt ≤ maxR →
      (∀ i, i < N → transport (callIdx + i) =
        .resp 429 (stx (callIdx + i)) (hdrs (callIdx + i)) (bds (callIdx + i))) →
      apiLoop cfg transport r2r maxR rD (fuel + N) callIdx attempt st evs =
        apiLoop cfg transport r2r maxR rD fuel (callIdx + N) attempt st
          (evs ++ rate429Trace cfg hdrs callIdx N) := by
  intro N
  induction N with
  | zero =>
      intro fuel callIdx attempt st evs ha ht
      simp [rate429Trace]
  | succ n ih =>
      intro fuel callIdx attempt st evs ha ht
      have hstep : fuel + (n + 1) = (fuel + n) + 1 := by omega
      rw [hstep]
      have h0 : transport callIdx =
          .resp 429 (stx callIdx) (hdrs callIdx) (bds callIdx) := by
        have := ht 0 (Nat.succ_pos n)
        simpa using this
      rw [apiLoop]
      simp only [h0, if_neg (by omega : ¬ attempt > maxR), if_pos rfl, if_true]
      have hT : ∀ i, i < n → transport (callIdx + 1 + i) =
          .resp 429 (stx (callIdx + 1 + i)) (hdrs (callIdx + 1 + i))
            (bds (callIdx + 1 + i)) := by
        intro i hi
        have := ht (i + 1) (by omega)
        have harith : callIdx + (i + 1) = callIdx + 1 + i := by omega
        rw [harith] at this
        exact this
      rw [ih fuel (callIdx + 1) attempt st
        (evs ++ [APIEvent.fetchEv callIdx] ++
          [APIEvent.rateLimitEv (rateDelay (hdrs callIdx) cfg),
           APIEvent.waitEv (rateDelay (hdrs callIdx) cfg)])
        ha hT]
      have harith2 : callIdx + 1 + n = callIdx + (n + 1) := by omega
      rw [harith2]
      congr 1
      simp [rate429Trace, List.append_assoc]

/-! ### Claims -/

/-- C1: for every parameter draft on which the tool schema's `safeParse`
reports failure (carrying a `ValidationError`), the Orchestrator's `execute`
resolves to `undefined` without invoking the Tool Descriptor's execution
function — no network call, no `parse` of the draft, no `onExecutionStart`
callback (the event trace is empty); only the validation errors are
stored. -/
theorem C1_invalid_draft_no_execution {P T R : Type} (truthyR : R → Bool)
    (schema : Schema P T)
    (toolExec : T → ToolExecutionContext → Except Thrown (ToolResult R))
    (ctxArg : Option CtxOverride) (now : Nat) (st : HookState P R)
    (r : SafeParseRes T) (ve : ValidationError)
    (hsp : schema.safeParse st.params = .ok r)
    (hs : r.success = false) (he : r.error = some ve) :
    hookExecute truthyR schema toolExec ctxArg now st =
      .ok ({ st with result := none, error := none,
                     validationErrors := some (errorsToRecord ve.errors) },
           none, []) :=
  hookExecute_invalid (validateParamsRun_failure hsp hs he)

/-- Witness for C1: a concrete always-failing schema makes `execute` resolve
to `undefined` with an empty event trace. -/
theorem C1_invalid_draft_no_execution_witness :
    hookExecute truthyAll schemaFail toolExecThrows none 0 hookSt0 =
      .ok (⟨(), none, false, none, some [("x", "x is required")]⟩, none, []) := by
  have h := C1_invalid_draft_no_execution truthyAll schemaFail toolExecThrows
    none 0 hookSt0 ⟨false, none, some failVE⟩ failVE rfl rfl rfl
  exact h

/-- C5: `validateParams` clears any prior field errors and runs `safeParse`
over the full current draft; on failure it stores one message per offending
field (keyed by the entry's `field` if present, else its dotted path) and
returns false; on success it returns true; and an exception thrown by the
schema itself is caught and stored as a single `_general` field error with
`validateParams` returning false rather than propagating. -/
theorem C5_validateParams_behaviour {P T R : Type} (schema : Schema P T)
    (st : HookState P R) :
    (∀ t, schema.safeParse st.params = .error t →
       hookValidateParams schema st =
         ({ st with
             validationErrors := some [("_general", thrownValidationMessage t)] },
          false))
    ∧ (∀ r, schema.safeParse st.params = .ok r → r.success = true →
       hookValidateParams schema st =
         ({ st with validationErrors := none }, true))
    ∧ (∀ r ve, schema.safeParse st.params = .ok r → r.success = false →
       r.error = some ve → (∀ en ∈ ve.errors, en.field ≠ some "") →
       hookValidateParams schema st =
         ({ st with validationErrors := some (errorsToRecord ve.errors) }, false)
       ∧ ∀ en ∈ ve.errors,
           (recGet (errorsToRecord ve.errors)
             (en.field.getD (String.intercalate "." en.path))).isSome) := by
  refine ⟨?_, ?_, ?_⟩
  · intro t h
    rw [hookValidateParams_eq, validateParamsRun_throw h]
  · intro r h hs
    rw [hookValidateParams_eq, validateParamsRun_success h hs]
  · intro r ve h hs he hf
    refine ⟨by rw [hookValidateParams_eq, validateParamsRun_failure h hs he], ?_⟩
    intro en hen
    rw [← entryKey_of_field_ne_empty (hf en hen)]
    exact errorsToRecord_mem_isSome hen

/-- Witness for C5: the failure branch at a concrete schema stores one
message keyed by the entry's `field` and returns false. -/
theorem C5_validateParams_behaviour_witness :
    hookValidateParams schemaFail hookSt0 =
      (⟨(), none, false, none, some [("x", "x is required")]⟩, false) ∧
    (recGet [("x", "x is required")] "x").isSome := by
  have h := (C5_validateParams_behaviour schemaFail hookSt0).2.2
    ⟨false, none, some failVE⟩ failVE rfl rfl rfl
    (by intro en hen; simp [failVE, failEntry] at hen; simp [hen])
  obtain ⟨h1, h2⟩ := h
  refine ⟨h1, ?_⟩
  have := h2 failEntry (by simp [failVE])
  exact this

/-- C6: the Orchestrator's `execute` never rejects to its caller when
invoked at rest: every error thrown during parsing of the draft or during
the tool's execution (including a Tool Result carrying a non-empty error
string) is caught, normalized to an `Error` object, stored in the error
state, reported via `onExecutionError`, and `execute` resolves with
`undefined`; in all paths `isExecuting` is false after `execute`
settles. -/
theorem C6_execute_never_throws {P T R : Type} (truthyR : R → Bool)
    (schema : Schema P T)
    (toolExec : T → ToolExecutionContext → Except Thrown (ToolResult R))
    (ctxArg : Option CtxOverride) (now : Nat) (st : HookState P R)
    (hrest : st.isExecuting = false) :
    (∃ stf ret evs,
       hookExecute truthyR schema toolExec ctxArg now st = .ok (stf, ret, evs) ∧
       stf.isExecuting = false)
    ∧ (∀ t, validateParamsRun schema st.params = (none, true) →
        schema.parse st.params = .error t →
        hookExecute truthyR schema toolExec ctxArg now st =
          .ok ({ st with result := none, error := some t.toError,
                         validationErrors := none, isExecuting := false },
               none, [.parseCall, .errorCb t.toError]))
    ∧ (∀ vp t, validateParamsRun schema st.params = (none, true) →
        schema.parse st.params = .ok vp →
        toolExec vp (buildCtx ctxArg now) = .error t →
        hookExecute truthyR schema toolExec ctxArg now st =
          .ok ({ st with result := none, error := some t.toError,
                         validationErrors := none, isExecuting := false },
               none, [.parseCall, .startCb vp, .toolCall vp, .errorCb t.toError]))
    ∧ (∀ vp res msg, validateParamsRun schema st.params = (none, true) →
        schema.parse st.params = .ok vp →
        toolExec vp (buildCtx ctxArg now) = .ok res →
        res.error = some msg → msg ≠ "" →
        hookExecute truthyR schema toolExec ctxArg now st =
          .ok ({ st with result := none, error := some ⟨"Error", msg⟩,
                         validationErrors := none, isExecuting := false },
               none, [.parseCall, .startCb vp, .toolCall vp,
                      .errorCb ⟨"Error", msg⟩])) := by
  refine ⟨?_, ?_, ?_, ?_⟩
  · obtain ⟨stf, ret, evs, heq, himp⟩ :=
      hookExecute_settles truthyR schema toolExec ctxArg now st
    exact ⟨stf, ret, evs, heq, himp hrest⟩
  · intro t hv hp
    rw [hookExecute_valid hv,
        executeTry_parse_throw truthyR schema toolExec ctxArg now (stExec st) hp]
    rfl
  · intro vp t hv hp ht
    rw [hookExecute_valid hv,
        executeTry_tool_throw truthyR schema toolExec ctxArg now (stExec st) hp ht]
    rfl
  · intro vp res msg hv hp ht hres hmsg
    have he : truthyStr res.error = true := by
      rw [hres]; simpa [truthyStr] using hmsg
    rw [hookExecute_valid hv,
        executeTry_tool_ok_errstr truthyR schema toolExec ctxArg now (stExec st)
          hp ht he,
        hres]
    rfl

/-- Witness for C6: a Tool Result carrying the error string `bad thing` is
folded into the stored error and the `onExecutionError` callback. -/
theorem C6_execute_never_throws_witness :
    hookExecute truthyAll schemaOk toolExecErrStr none 0 hookSt0 =
      .ok (⟨(), none, false, some ⟨"Error", "bad thing"⟩, none⟩, none,
           [.parseCall, .startCb (), .toolCall (),
            .errorCb ⟨"Error", "bad thing"⟩]) := by
  have h := (C6_execute_never_throws truthyAll schemaOk toolExecErrStr
    none 0 hookSt0 rfl).2.2.2 () ⟨none, some "bad thing", none, none⟩
    "bad thing" rfl rfl rfl rfl (by decide)
  exact h

/-- C10: if the tool's execution function resolves with a Tool Result whose
`error` field is absent and whose `data` field is absent or falsy, the
Orchestrator's `execute` resolves with `undefined`, leaves both `result`
and `error` cleared, and fires neither `onExecutionComplete` nor
`onExecutionError` — the falsy success payload is silently dropped. -/
theorem C10_falsy_data_dropped {P T R : Type} (truthyR : R → Bool)
    (schema : Schema P T)
    (toolExec : T → ToolExecutionContext → Except Thrown (ToolResult R))
    (ctxArg : Option CtxOverride) (now : Nat) (st : HookState P R)
    (vp : T) (res : ToolResult R)
    (hv : validateParamsRun schema st.params = (none, true))
    (hp : schema.parse st.params = .ok vp)
    (ht : toolExec vp (buildCtx ctxArg now) = .ok res)
    (herr : res.error = none)
    (hdat : ∀ d, res.data = some d → truthyR d = false) :
    hookExecute truthyR schema toolExec ctxArg now st =
      .ok ({ st with result := none, error := none, validationErrors := none,
                     isExecuting := false },
           none, [.parseCall, .startCb vp, .toolCall vp]) := by
  have he : truthyStr res.error = false := by rw [herr]; rfl
  rw [hookExecute_valid hv,
      executeTry_tool_ok_falsy truthyR schema toolExec ctxArg now (stExec st)
        hp ht he hdat]
  rfl

/-- Witness for C10: a falsy payload `0` with no error is dropped; the
result stays `null` and no completion callback fires. -/
theorem C10_falsy_data_dropped_witness :
    hookExecute JSValue.truthy schemaOk toolExecFalsy none 0 hookSt0 =
      .ok (⟨(), none, false, none, none⟩, none,
           [.parseCall, .startCb (), .toolCall ()]) := by
  have h := C10_falsy_data_dropped JSValue.truthy schemaOk toolExecFalsy
    none 0 hookSt0 () ⟨some (.vNum 0), none, none, none⟩ rfl rfl rfl rfl
    (by intro d hd; injection hd with hd; rw [← hd]; rfl)
  exact h

/-- C9: `updateParam` followed immediately by `execute` validates and
executes over the merged draft, not over the parameter snapshot from before
the update: when the merged draft validates (even though the pre-update
snapshot fails validation), execution proceeds with the value parsed from
the merged draft. -/
theorem C9_merged_draft_used {T R : Type} (truthyR : R → Bool)
    (schema : Schema (List (String × JSValue)) T)
    (toolExec : T → ToolExecutionContext → Except Thrown (ToolResult R))
    (ctxArg : Option CtxOverride) (now : Nat)
    (st : HookState (List (String × JSValue)) R) (r : SafeParseRes T)
    (hm : schema.safeParse (recSet st.params "x" (.vNum 5)) = .ok r)
    (hs : r.success = true)
    (hstale : (validateParamsRun schema st.params).2 = false) :
    validateParamsRun schema ((hookUpdateParam st "x" (.vNum 5)).params) =
      (none, true)
    ∧ ∀ vp, schema.parse (recSet st.params "x" (.vNum 5)) = .ok vp →
        ∃ stf ret evs,
          hookExecute truthyR schema toolExec ctxArg now
              (hookUpdateParam st "x" (.vNum 5)) = .ok (stf, ret, evs)
          ∧ HookEvent.startCb vp ∈ evs ∧ HookEvent.toolCall vp ∈ evs := by
  have hup : (hookUpdateParam st "x" (.vNum 5)).params =
      recSet st.params "x" (.vNum 5) := rfl
  have hvm : validateParamsRun schema
      ((hookUpdateParam st "x" (.vNum 5)).params) = (none, true) := by
    rw [hup]; exact validateParamsRun_success hm hs
  refine ⟨hvm, ?_⟩
  intro vp hp
  rw [hookExecute_valid hvm]
  cases ht : toolExec vp (buildCtx ctxArg now) with
  | error t =>
      rw [executeTry_tool_throw truthyR schema toolExec ctxArg now
        (stExec (hookUpdateParam st "x" (.vNum 5))) hp ht]
      exact ⟨_, _, _, rfl, by simp, by simp⟩
  | ok res =>
      by_cases he : truthyStr res.error = true
      · rw [executeTry_tool_ok_errstr truthyR schema toolExec ctxArg now
          (stExec (hookUpdateParam st "x" (.vNum 5))) hp ht he]
        exact ⟨_, _, _, rfl, by simp, by simp⟩
      · have he' : truthyStr res.error = false := by
          simpa using he
        cases hd : res.data with
        | none =>
            rw [executeTry_tool_ok_falsy truthyR schema toolExec ctxArg now
              (stExec (hookUpdateParam st "x" (.vNum 5))) hp ht he'
              (by intro d hdd; rw [hd] at hdd; exact Option.noConfusion hdd)]
            exact ⟨_, _, _, rfl, by simp, by simp⟩
        | some d =>
            by_cases htr : truthyR d = true
            · rw [executeTry_tool_ok_data truthyR schema toolExec ctxArg now
                (stExec (hookUpdateParam st "x" (.vNum 5))) hp ht he' hd htr]
              exact ⟨_, _, _, rfl, by simp, by simp⟩
            · rw [executeTry_tool_ok_falsy truthyR schema toolExec ctxArg now
                (stExec (hookUpdateParam st "x" (.vNum 5))) hp ht he'
                (by
                  intro d2 hdd
                  rw [hd] at hdd
                  injection hdd with hdd
                  rw [← hdd]
                  simpa using htr)]
              exact ⟨_, _, _, rfl, by simp, by simp⟩

/-- Witness for C9: with a schema accepting exactly drafts whose `x` is 5,
starting from the empty draft (which fails validation), updating `x` to 5
and executing reaches the tool with the merged value. -/
theorem C9_merged_draft_used_witness :
    validateParamsRun schemaX5 ((hookUpdateParam hookStX "x" (.vNum 5)).params) =
      (none, true)
    ∧ ∃ stf ret evs,
        hookExecute JSValue.truthy schemaX5 toolExecEcho none 7
            (hookUpdateParam hookStX "x" (.vNum 5)) = .ok (stf, ret, evs)
        ∧ HookEvent.startCb (JSValue.vNum 5) ∈ evs
        ∧ HookEvent.toolCall (JSValue.vNum 5) ∈ evs := by
  have h := C9_merged_draft_used JSValue.truthy schemaX5 toolExecEcho none 7
    hookStX ⟨true, some (.vNum 5), none⟩ rfl rfl rfl
  exact ⟨h.1, h.2 (.vNum 5) rfl⟩

/-- C3: with `retryAttempts = 2` and `retryDelay = 100` against a transport
returning status 500 on the first two requests and 200 on the third,
`executeAPI` performs exactly three requests, succeeds on the third, and
waits `retryDelay * attemptNumber` between attempts: 100ms after the first
failure and 200ms after the second (linear backoff). -/
theorem C3_linear_backoff_retry :
    executeAPI cfgC3 transportC3 id 10 st0 =
      (.success (.vStr "payload"),
       ⟨some (.vStr "payload"), none, false⟩,
       [.fetchEv 0, .retryEv 1, .waitEv 100, .fetchEv 1, .retryEv 2,
        .waitEv 200, .fetchEv 2, .successEv])
    ∧ (executeAPI cfgC3 transportC3 id 10 st0).2.2.countP
        (fun e => match e with | .fetchEv _ => true | _ => false) = 3
    ∧ (executeAPI cfgC3 transportC3 id 10 st0).2.2.filterMap
        (fun e => match e with | .waitEv m => some m | _ => none) =
        [100, 200] := by
  refine ⟨rfl, ?_, ?_⟩ <;> rfl

/-- C2 counterexample: on a thrown transport error the wrapped `execute`
produces `errorDetails.code = 'API_ERROR'`, not `'TRANSPORT_ERROR'` as the
claim states. -/
theorem C2_code_is_API_ERROR :
    (adapterToolExecute cfgZero transportC2 id 5 42 ctxPlain st0).1 =
      some { data := none, error := some "Failed to fetch",
             errorDetails := some { code := some "API_ERROR",
                                    details := some [("message", "Failed to fetch")],
                                    suggestions := some ["Check your connection", "Try again later"] },
             metadata := none }
    ∧ "API_ERROR" ≠ "TRANSPORT_ERROR" := by
  exact ⟨rfl, by decide⟩

/-- C2 (amended): when the wrapped `execute` catches a thrown error, the
returned Tool Result is a Failure whose `error` is the thrown error's
message and whose `errorDetails.code` equals `'API_ERROR'` (with details and
suggestions); when the underlying call returns a value, the result is a
Success carrying that value as `data` with a `completedAt` metadata
timestamp. -/
theorem C2_wrapped_result_shape {B R : Type} (cfg : APIConfig)
    (transport : Nat → FetchOutcome B) (r2r : B → R) (fuel now : Nat)
    (ctx : ToolExecutionContext) (st : APIState R) :
    (∀ e st1 evs, executeAPI cfg transport r2r fuel st = (.thrown e, st1, evs) →
       (adapterToolExecute cfg transport r2r fuel now ctx st).1 =
         some { data := none, error := some e.message,
                errorDetails := some { code := some "API_ERROR",
                                       details := some [("message", e.message)],
                                       suggestions := some ["Check your connection", "Try again later"] },
                metadata := none })
    ∧ (∀ r st1 evs, executeAPI cfg transport r2r fuel st = (.success r, st1, evs) →
       (adapterToolExecute cfg transport r2r fuel now ctx st).1 =
         some { data := some r, error := none, errorDetails := none,
                metadata := some { durationMs := none,
                                   completedAt := some now,
                                   extra := [("toolCallId", .vStr ctx.toolCallId)] } }) := by
  constructor
  · intro e st1 evs h
    unfold adapterToolExecute
    rw [h]
  · intro r st1 evs h
    unfold adapterToolExecute
    rw [h]

/-- Witness for the amended C2: the success branch carries the payload and
a `completedAt` timestamp. -/
theorem C2_wrapped_result_shape_witness :
    (adapterToolExecute cfgZero transportOk200 id 5 42 ctxPlain st0).1 =
      some { data := some (.vStr "ok"), error := none, errorDetails := none,
             metadata := some { durationMs := none,
                                completedAt := some 42,
                                extra := [("toolCallId", .vStr "c1")] } } := by
  have h := (C2_wrapped_result_shape cfgZero transportOk200 id 5 42 ctxPlain
    st0).2 (.vStr "ok") ⟨some (.vStr "ok"), none, false⟩
    [.fetchEv 0, .successEv] rfl
  exact h

/-- C8: every Tool Result produced by a normally completing run of the
adapter's `execute` has exactly one of `data` and `error` populated —
never both and never neither. -/
theorem C8_result_exclusive {B R : Type} (cfg : APIConfig)
    (transport : Nat → FetchOutcome B) (r2r : B → R) (fuel now : Nat)
    (ctx : ToolExecutionContext) (st : APIState R) (res : ToolResult R)
    (st1 : APIState R) (evs : List APIEvent)
    (h : adapterToolExecute cfg transport r2r fuel now ctx st =
      (some res, st1, evs)) :
    (res.data.isSome ∧ res.error = none) ∨
    (res.data = none ∧ res.error.isSome) := by
  unfold adapterToolExecute at h
  rcases hE : executeAPI cfg transport r2r fuel st with ⟨o, st2, evs2⟩
  rw [hE] at h
  cases o with
  | success r =>
      have h1 := congrArg (fun x => x.1) h
      simp only [Option.some.injEq] at h1
      rw [← h1]
      left
      exact ⟨rfl, rfl⟩
  | thrown e =>
      have h1 := congrArg (fun x => x.1) h
      simp only [Option.some.injEq] at h1
      rw [← h1]
      right
      exact ⟨rfl, rfl⟩
  | fuelOut =>
      have h1 := congrArg (fun x => x.1) h
      simp at h1

/-- Witness for C8: the success result at a concrete transport has `data`
populated and `error` absent. -/
theorem C8_result_exclusive_witness :
    (resOk200.data.isSome ∧ resOk200.error = none) ∨
    (resOk200.data = none ∧ resOk200.error.isSome) :=
  C8_result_exclusive cfgZero transportOk200 id 5 42 ctxPlain st0 resOk200
    ⟨some (.vStr "ok"), none, false⟩ [.fetchEv 0, .successEv] rfl

/-- C4 counterexample: a rate-limit response whose `retry-after` header is
present and reads `"0"` (0 seconds, i.e. a 0ms hint) makes the adapter wait
the configured `rateLimitDelay` of 700ms, not the hint converted to
milliseconds. -/
theorem C4_hint_zero_counterexample :
    transportC4 0 = .resp 429 "Too Many Requests" (some "0") .vNull
    ∧ (jsParseInt "0").map (fun n => n * 1000) = some 0
    ∧ (executeAPI cfgC4 transportC4 id 10 st0).2.2 =
        [.fetchEv 0, .rateLimitEv 700, .waitEv 700, .fetchEv 1, .successEv]
    ∧ (700 : Nat) ≠ 0 := by
  refine ⟨rfl, rfl, rfl, by decide⟩

theorem retryEv_not_mem_rate429Trace (cfg : APIConfig)
    (hdrs : Nat → Option String) :
    ∀ (n base a : Nat), APIEvent.retryEv a ∉ rate429Trace cfg hdrs base n := by
  intro n
  induction n with
  | zero => intro base a h; simp [rate429Trace] at h
  | succ k ih =>
      intro base a h
      simp only [rate429Trace, List.cons_append, List.nil_append,
        List.mem_cons] at h
      rcases h with h | h | h | h
      · exact APIEvent.noConfusion h
      · exact APIEvent.noConfusion h
      · exact APIEvent.noConfusion h
      · exact ih (base + 1) a h

/-- C4 (amended): on every rate-limit (429) response the adapter waits the
`retry-after` hint converted to milliseconds when the header parses to a
nonzero number, else the configured `rateLimitDelay` when nonzero, else
5000ms; it notifies the `onRateLimit` observer with that delay and retries
without incrementing the attempt counter — so for every number `N` of
consecutive rate-limit responses followed by a success the call still
succeeds (no retry notification ever fires), even when `N` exceeds
`retryAttempts`. -/
theorem C4_rate_limit_unbounded {B R : Type} (N : Nat) (cfg : APIConfig)
    (transport : Nat → FetchOutcome B) (r2r : B → R) (stx : Nat → String)
    (hdrs : Nat → Option String) (bds : Nat → B) (body : B) (st : APIState R)
    (h429 : ∀ i, i < N → transport i = .resp 429 (stx i) (hdrs i) (bds i))
    (hOK : transport N = .resp 200 "OK" none body) :
    executeAPI cfg transport r2r (N + 1) st =
      (.success (r2r body),
       ⟨some (r2r body), none, false⟩,
       rate429Trace cfg hdrs 0 N ++ [.fetchEv N, .successEv])
    ∧ ∀ a, APIEvent.retryEv a ∉ (executeAPI cfg transport r2r (N + 1) st).2.2 := by
  have hmain : executeAPI cfg transport r2r (N + 1) st =
      (.success (r2r body),
       ⟨some (r2r body), none, false⟩,
       rate429Trace cfg hdrs 0 N ++ [.fetchEv N, .successEv]) := by
    unfold executeAPI
    rw [show N + 1 = 1 + N from by omega]
    rw [apiLoop_rate429 cfg transport r2r (jsOrNat cfg.retryAttempts 0)
      (jsOrNat cfg.retryDelay 1000) stx hdrs bds N 1 0 0
      { st with isLoading := true, lastError := none } []
      (Nat.zero_le _) (by intro i hi; simpa using h429 i hi)]
    rw [Nat.zero_add]
    rw [apiLoop]
    simp only [hOK, if_neg (by omega : ¬ (0 : Nat) > jsOrNat cfg.retryAttempts 0),
      if_neg (by decide : ¬ (200 : Nat) = 429)]
    have hok : (!jsOk 200) = false := by decide
    rw [hok]
    simp [List.append_assoc]
  refine ⟨hmain, ?_⟩
  intro a hmem
  rw [hmain] at hmem
  simp only [List.mem_append, List.mem_cons, List.not_mem_nil] at hmem
  rcases hmem with hmem | hmem | hmem | hmem
  · exact retryEv_not_mem_rate429Trace cfg hdrs N 0 a hmem
  · exact APIEvent.noConfusion hmem
  · exact APIEvent.noConfusion hmem
  · exact hmem

/-- Witness for the amended C4: two 429 responses with a 2-second hint and
`retryAttempts = 0` still end in success after two 2000ms waits, with no
retry notification. -/
theorem C4_rate_limit_unbounded_witness :
    executeAPI cfgC4w transportC4w id 3 st0 =
      (.success (.vStr "done"), ⟨some (.vStr "done"), none, false⟩,
       [.fetchEv 0, .rateLimitEv 2000, .waitEv 2000, .fetchEv 1,
        .rateLimitEv 2000, .waitEv 2000, .fetchEv 2, .successEv]) := by
  have h := (C4_rate_limit_unbounded 2 cfgC4w transportC4w id
    (fun _ => "Too Many Requests") (fun _ => some "2") (fun _ => JSValue.vNull)
    (.vStr "done") st0 (by decide) rfl).1
  exact h

/-- C7 counterexample: the Execution Context's abort signal is never
attached to the transport (the adapter consults the context only for
`toolCallId`), so with the context cancelled before any response the
adapter still performs the network call and completes with a Success —
not a cancellation outcome. -/
theorem C7_context_abort_ignored :
    ctxAborted.abortSignal = some ⟨true⟩
    ∧ adapterToolExecute cfgZero transportOk200 id 5 99 ctxAborted st0 =
        (some { data := some (.vStr "ok"), error := none, errorDetails := none,
                metadata := some { durationMs := none,
                                   completedAt := some 99,
                                   extra := [("toolCallId", .vStr "c1")] } },
         ⟨some (.vStr "ok"), none, false⟩,
         [.fetchEv 0, .successEv]) :=
  ⟨rfl, rfl⟩

/-- C7 (amended): when the signal actually attached to fetch — the
adapter's own abort controller — is aborted before the transport responds,
the fetch rejects with an `AbortError` and the adapter call terminates
immediately with that cancellation outcome: no retry attempt, no terminal
error stored in `lastError`, no state change beyond clearing the loading
flag; and the Orchestrator's `isExecuting` is false after `execute`
settles. -/
theorem C7_abort_terminal {B R : Type} (cfg : APIConfig)
    (transport : Nat → FetchOutcome B) (r2r : B → R) (fuel : Nat)
    (st : APIState R) (m : String)
    (h0 : transport 0 = .rejects (.err ⟨"AbortError", m⟩)) :
    executeAPI cfg transport r2r (fuel + 1) st =
      (.thrown ⟨"AbortError", m⟩, ⟨st.lastResult, none, false⟩, [.fetchEv 0])
    ∧ ∀ (P T : Type) (truthyR : R → Bool) (schema : Schema P T)
        (ctxArg : Option CtxOverride) (now now2 : Nat) (st2 : HookState P R),
        st2.isExecuting = false →
        ∃ stf ret evs,
          hookExecute truthyR schema
              (toolExecOfAdapter cfg transport r2r (fuel + 1) now st)
              ctxArg now2 st2 = .ok (stf, ret, evs)
          ∧ stf.isExecuting = false := by
  constructor
  · unfold executeAPI
    rw [apiLoop]
    simp only [h0,
      if_neg (by omega : ¬ (0 : Nat) > jsOrNat cfg.retryAttempts 0)]
    rfl
  · intro P T truthyR schema ctxArg now now2 st2 hrest
    obtain ⟨stf, ret, evs, heq, himp⟩ := hookExecute_settles truthyR schema
      (toolExecOfAdapter cfg transport r2r (fuel + 1) now st) ctxArg now2 st2
    exact ⟨stf, ret, evs, heq, himp hrest⟩

/-- Witness for the amended C7: an aborted fetch terminates the adapter in
one request with no retry and only the loading flag changed, and a hook
execution over that adapter settles with `isExecuting` false. -/
theorem C7_abort_terminal_witness :
    executeAPI cfgC3 transportAbort id 10 stPrev =
      (.thrown ⟨"AbortError", "The user aborted a request."⟩,
       ⟨some (.vStr "prev"), none, false⟩, [.fetchEv 0])
    ∧ ∃ stf ret evs,
        hookExecute truthyAll schemaOk
            (toolExecOfAdapter cfgC3 transportAbort id 10 0 stPrev)
            none 0 hookSt0 = .ok (stf, ret, evs)
        ∧ stf.isExecuting = false := by
  have h := C7_abort_terminal cfgC3 transportAbort id 9 stPrev
    "The user aborted a request." rfl
  exact ⟨h.1, h.2 Unit Unit truthyAll schemaOk none 0 0 hookSt0 rfl⟩

end ChatbotCore
